import Mathlib

/-!
Verification of the Face-Region-to-Roster Assignment Engine
(`src/streamlit_app.py`): a shallow embedding of its data model and
operations, with theorems about the coordinate mapper, roster search,
hit-testing, assignment, and report reconciliation.

Conventions of the embedding:
* Python strings are `List Char`; Python `str.lower`/`str.strip` are mapped
  to `Char.toLower`/`Char.isWhitespace` (identical on ASCII data).
* Python floats are modelled as `ℚ`; Python `int(x)` (truncation toward
  zero) is `pyTrunc`; Python `//` (floor division) is `Int.fdiv`.
* The pandas roster `DataFrame` is a `List RosterEntry`; after `load_csv`
  its index is `0, 1, ..., N-1`, so entry-indices are list positions.
-/

namespace Attendance

/-- Python `int(x)`: truncation toward zero. -/
def pyTrunc (q : ℚ) : Int := if 0 ≤ q then ⌊q⌋ else ⌈q⌉

/-- A computed letterbox fit: scale plus centering offsets, as set by
`App.draw_image` (fields `self.scale`, `self.offset`). -/
structure FitResult where
  scale : ℚ
  offX : Int
  offY : Int
deriving DecidableEq, Repr

/-- The not-ready condition: `App.draw_image` returns without computing a
fit when the canvas is not yet laid out (`cw <= 1 or ch <= 1`); the spec
names this condition `NotReadyError`. -/
inductive FitError where
  | notReady
deriving DecidableEq, Repr

/-- The fit computation inside `App.draw_image` (src/streamlit_app.py
lines 141-156): guard `cw <= 1 or ch <= 1`, then
`scale = min(cw/iw, ch/ih)`, `new_w = int(iw*scale)`, `new_h = int(ih*scale)`,
`x_off = (cw - new_w) // 2`, `y_off = (ch - new_h) // 2`. -/
def compute_fit (iw ih cw ch : Int) : Except FitError FitResult :=
  if cw ≤ 1 ∨ ch ≤ 1 then .error .notReady
  else
    let scale : ℚ := min ((cw : ℚ) / (iw : ℚ)) ((ch : ℚ) / (ih : ℚ))
    let new_w : Int := pyTrunc ((iw : ℚ) * scale)
    let new_h : Int := pyTrunc ((ih : ℚ) * scale)
    .ok ⟨scale, Int.fdiv (cw - new_w) 2, Int.fdiv (ch - new_h) 2⟩

/-- The mapper state held on the `App` object: `self.scale`, `self.offset`. -/
structure MapperState where
  scale : ℚ
  offset : Int × Int
deriving DecidableEq, Repr

/-- State effect of `App.draw_image` on `self.scale` / `self.offset`:
on the not-ready early return the stored state is left unchanged, else the
freshly computed fit is stored. -/
def draw_image (st : MapperState) (iw ih cw ch : Int) : MapperState :=
  match compute_fit iw ih cw ch with
  | .error _ => st
  | .ok f => { scale := f.scale, offset := (f.offX, f.offY) }

/-- `App.draw_facebox` display mapping (lines 163-164):
`x = int(fb.x * self.scale) + self.offset[0]`, likewise for `y`. -/
def to_display (s : ℚ) (off : Int × Int) (px py : Int) : Int × Int :=
  (pyTrunc ((px : ℚ) * s) + off.1, pyTrunc ((py : ℚ) * s) + off.2)

/-- `App.canvas_to_image_coords` (lines 192-196):
`x = (px - self.offset[0]) / self.scale; return int(x), int(y)`. -/
def to_image (s : ℚ) (off : Int × Int) (sx sy : Int) : Int × Int :=
  (pyTrunc (((sx - off.1 : Int) : ℚ) / s), pyTrunc (((sy - off.2 : Int) : ℚ) / s))

lemma pyTrunc_of_nonneg {q : ℚ} (h : 0 ≤ q) : pyTrunc q = ⌊q⌋ := if_pos h

/-- One-coordinate round trip: mapping an image coordinate to display space
and back loses at most `⌈1/scale⌉` image pixels, always rounding down. -/
lemma coord_roundtrip (s : ℚ) (px : Int) (hs : 0 < s) (hpx : 0 ≤ px) :
    pyTrunc ((pyTrunc ((px : ℚ) * s) : ℚ) / s) ≤ px ∧
    px - pyTrunc ((pyTrunc ((px : ℚ) * s) : ℚ) / s) ≤ ⌈(1 : ℚ) / s⌉ := by
  have hqs : (0 : ℚ) ≤ (px : ℚ) * s := by
    have : (0 : ℚ) ≤ (px : ℚ) := by exact_mod_cast hpx
    exact mul_nonneg this hs.le
  rw [pyTrunc_of_nonneg hqs]
  set d : Int := ⌊(px : ℚ) * s⌋ with hd
  have hd0 : (0 : ℚ) ≤ (d : ℚ) := by
    exact_mod_cast Int.floor_nonneg.mpr hqs
  have hdiv0 : (0 : ℚ) ≤ (d : ℚ) / s := div_nonneg hd0 hs.le
  rw [pyTrunc_of_nonneg hdiv0]
  constructor
  · have h1 : (d : ℚ) ≤ (px : ℚ) * s := Int.floor_le _
    have h2 : (d : ℚ) / s ≤ (px : ℚ) := by
      rw [div_le_iff₀ hs]
      linarith
    calc ⌊(d : ℚ) / s⌋ ≤ ⌊((px : Int) : ℚ)⌋ := Int.floor_le_floor h2
      _ = px := Int.floor_intCast px
  · have h1 : (px : ℚ) * s - 1 < (d : ℚ) := Int.sub_one_lt_floor _
    have h2 : (px : ℚ) - 1 / s < (d : ℚ) / s := by
      rw [lt_div_iff₀ hs, sub_mul, one_div, inv_mul_cancel₀ hs.ne']
      linarith
    have h3 : (d : ℚ) / s - 1 < (⌊(d : ℚ) / s⌋ : ℚ) := Int.sub_one_lt_floor _
    have h4 : (1 : ℚ) / s ≤ (⌈(1 : ℚ) / s⌉ : ℚ) := Int.le_ceil _
    have h5 : ((px - ⌊(d : ℚ) / s⌋ : Int) : ℚ) < ((⌈(1 : ℚ) / s⌉ + 1 : Int) : ℚ) := by
      push_cast
      linarith
    have h6 : px - ⌊(d : ℚ) / s⌋ < ⌈(1 : ℚ) / s⌉ + 1 := by exact_mod_cast h5
    omega

/-- C5 (counterexample): with the valid fit produced by
`compute_fit 800 600 80 60` (scale `1/10`, offset `(0,0)`), the in-bounds
image point `(19, 0)` round-trips to `(10, 0)`, which is off by 9 > 1 in
the x coordinate, so the round trip is not within one unit. -/
theorem roundtrip_counterexample :
    compute_fit 800 600 80 60 = .ok ⟨1/10, 0, 0⟩ ∧
    to_image (1/10) (0, 0) (to_display (1/10) (0, 0) 19 0).1
      (to_display (1/10) (0, 0) 19 0).2 = (10, 0) ∧
    ¬ ((19 - 10 : Int) ≤ 1) := by
  refine ⟨?_, ?_, by norm_num⟩
  · simp only [compute_fit, pyTrunc, min_def]
    norm_num [Int.fdiv]
  · simp only [to_image, to_display, pyTrunc]
    norm_num

/-- C5 (amended): for every scale `s > 0`, every offset and every
nonnegative image point, `to_image (to_display p)` never overshoots and
undershoots by at most `⌈1/s⌉` in each coordinate (one display pixel of
quantization, worth up to `⌈1/s⌉` image pixels); the spec's
"within one unit" bound holds only when `s ≥ 1`. -/
theorem roundtrip_amended (s : ℚ) (off : Int × Int) (px py : Int)
    (hs : 0 < s) (hpx : 0 ≤ px) (hpy : 0 ≤ py) :
    (to_image s off (to_display s off px py).1 (to_display s off px py).2).1 ≤ px ∧
    px - (to_image s off (to_display s off px py).1 (to_display s off px py).2).1 ≤ ⌈(1 : ℚ) / s⌉ ∧
    (to_image s off (to_display s off px py).1 (to_display s off px py).2).2 ≤ py ∧
    py - (to_image s off (to_display s off px py).1 (to_display s off px py).2).2 ≤ ⌈(1 : ℚ) / s⌉ := by
  have hx := coord_roundtrip s px hs hpx
  have hy := coord_roundtrip s py hs hpy
  simp only [to_image, to_display, add_sub_cancel_right]
  exact ⟨hx.1, hx.2, hy.1, hy.2⟩

/-- Witness for `roundtrip_amended` at scale `1/2`, offset `(0,0)`,
point `(3, 1)`: the round trip gives `(2, 0)` and the bounds hold. -/
theorem roundtrip_amended_witness :
    (to_image (1/2) (0, 0) (to_display (1/2) (0, 0) 3 1).1
        (to_display (1/2) (0, 0) 3 1).2).1 ≤ 3 ∧
    (3 : Int) - (to_image (1/2) (0, 0) (to_display (1/2) (0, 0) 3 1).1
        (to_display (1/2) (0, 0) 3 1).2).1 ≤ ⌈(1 : ℚ) / (1/2)⌉ ∧
    (to_image (1/2) (0, 0) (to_display (1/2) (0, 0) 3 1).1
        (to_display (1/2) (0, 0) 3 1).2).2 ≤ 1 ∧
    (1 : Int) - (to_image (1/2) (0, 0) (to_display (1/2) (0, 0) 3 1).1
        (to_display (1/2) (0, 0) 3 1).2).2 ≤ ⌈(1 : ℚ) / (1/2)⌉ :=
  roundtrip_amended (1/2) (0, 0) 3 1 (by norm_num) (by norm_num) (by norm_num)

/-- C3 (counterexample): `compute_fit 800 600 400 400` does not return the
spec's claimed offset `(0, 100)`. -/
theorem compute_fit_scenario_counterexample :
    compute_fit 800 600 400 400 ≠ .ok ⟨1/2, 0, 100⟩ := by
  have h : compute_fit 800 600 400 400 = .ok ⟨1/2, 0, 50⟩ := by
    simp only [compute_fit, pyTrunc, min_def]
    norm_num [Int.fdiv]
  rw [h]
  intro hc
  have : (50 : Int) = 100 := congrArg FitResult.offY (Except.ok.inj hc)
  norm_num at this

/-- C3 (amended): `compute_fit 800 600 400 400` returns scale `1/2` and
offset `(0, 50)` (the letterbox margin is `(400 - 300) // 2 = 50`). -/
theorem compute_fit_scenario_amended :
    compute_fit 800 600 400 400 = .ok ⟨1/2, 0, 50⟩ := by
  simp only [compute_fit, pyTrunc, min_def]
  norm_num [Int.fdiv]

/-- C8: when the viewport is not yet laid out (width or height ≤ 1),
`compute_fit` signals the not-ready condition instead of dividing, and
`draw_image` leaves the stored scale/offset state unchanged. -/
theorem compute_fit_not_ready (st : MapperState) (iw ih cw ch : Int)
    (h : cw ≤ 1 ∨ ch ≤ 1) :
    compute_fit iw ih cw ch = .error .notReady ∧
    draw_image st iw ih cw ch = st := by
  have hfit : compute_fit iw ih cw ch = .error .notReady := by
    simp only [compute_fit, if_pos h]
  exact ⟨hfit, by simp only [draw_image, hfit]⟩

/-- Witness for `compute_fit_not_ready` at a 1-pixel-wide viewport. -/
theorem compute_fit_not_ready_witness :
    compute_fit 800 600 1 400 = .error .notReady ∧
    draw_image ⟨1, (0, 0)⟩ 800 600 1 400 = ⟨1, (0, 0)⟩ :=
  compute_fit_not_ready ⟨1, (0, 0)⟩ 800 600 1 400 (Or.inl (by norm_num))

/-- One roster row, as loaded by `Roster.load_csv` (all fields strings,
missing values filled with `""`). `section` is a Lean keyword, so the
`Section` column is the field `sect`. -/
structure RosterEntry where
  admission_no : List Char
  name : List Char
  sect : List Char
deriving DecidableEq, Repr

/-- Python `str.lower` (identical to `Char.toLower` on ASCII data). -/
def lowerStr (s : List Char) : List Char := s.map Char.toLower

/-- Python `str.strip`: drop leading and trailing whitespace. -/
def stripStr (s : List Char) : List Char :=
  ((s.dropWhile Char.isWhitespace).reverse.dropWhile Char.isWhitespace).reverse

/-- Substring containment: does `s` contain `q` as a contiguous run? -/
def containsSub (q : List Char) : List Char → Bool
  | [] => q.isEmpty
  | c :: t => q.isPrefixOf (c :: t) || containsSub q t

/-- The row mask of `Roster.search` (line 31):
`df["Name"].str.lower().str.contains(q) | df["Admission_No"].astype(str).str.contains(q)`.
`Name` is lowercased before matching but `Admission_No` is not. Pandas
`str.contains` interprets `q` as a regular expression; on
metacharacter-free queries it is substring containment, modelled by
`containsSub`. -/
def entryMatches (q : List Char) (e : RosterEntry) : Bool :=
  containsSub q (lowerStr e.name) || containsSub q e.admission_no

/-- `Roster.search` (lines 27-32): strip and lowercase the query; an empty
result means every row index; otherwise the indices (in order) of the rows
whose mask bit is set. After `load_csv` the DataFrame index is
`0 .. N-1`, so `list(self.df.index)` is `List.range N`. -/
def search (roster : List RosterEntry) (query : List Char) : List Nat :=
  let q := lowerStr (stripStr query)
  if q = [] then List.range roster.length
  else (List.range roster.length).filter
    (fun i => ((roster[i]?).map (entryMatches q)).getD false)

/-- Modelled from the spec's words, for comparison with `search`:
"case-insensitive substring match against `name` OR `admission_no`", i.e.
both fields are compared lowercased. -/
def search_per_spec (roster : List RosterEntry) (query : List Char) : List Nat :=
  let q := lowerStr (stripStr query)
  if q = [] then List.range roster.length
  else (List.range roster.length).filter
    (fun i => ((roster[i]?).map (fun e =>
      containsSub q (lowerStr e.name) || containsSub q (lowerStr e.admission_no))).getD false)

/-- `Roster.get_display` (lines 34-37): `f"{Name}{sec}  —  {Admission_No}"`
where `sec = f" ({Section})"` when the section is nonempty. `df.loc[idx]`
raises on a stale index (the spec's `NotFoundError`), modelled as `Option`. -/
def get_display (roster : List RosterEntry) (i : Nat) : Option (List Char) :=
  (roster[i]?).map (fun r =>
    r.name ++ (if r.sect = [] then [] else [' ', '('] ++ r.sect ++ [')'])
      ++ "  —  ".toList ++ r.admission_no)

/-- Roster of the spec's scenario: `[(A001, "Ann"), (A002, "Bob")]`. -/
def roster2 : List RosterEntry :=
  [⟨"A001".toList, "Ann".toList, []⟩, ⟨"A002".toList, "Bob".toList, []⟩]

/-- Roster exhibiting the `search` case-sensitivity flaw: one entry whose
admission number `A1` contains an uppercase letter. -/
def rosterA1 : List RosterEntry := [⟨"A1".toList, "x".toList, []⟩]

/-- C6 (counterexample): searching for the entry's own admission number
`"A1"` finds nothing, because the query is lowercased to `"a1"` but the
admission string is matched without lowercasing; the spec-mandated
case-insensitive search would return the entry. -/
theorem search_counterexample :
    search rosterA1 ("A1".toList) = [] ∧
    search_per_spec rosterA1 ("A1".toList) = [0] := by
  constructor <;> decide

/-- C6 (amended): an empty or whitespace-only query returns every index in
original order; otherwise `search` returns exactly the valid indices whose
row matches the mask of line 31 (name compared case-insensitively, the
admission number compared against the *lowercased* query without
lowercasing the stored string); results are strictly increasing, hence
preserve roster order, and the model is a pure function (no side effects). -/
theorem search_amended (roster : List RosterEntry) (query : List Char) :
    (lowerStr (stripStr query) = [] → search roster query = List.range roster.length)
    ∧ (∀ i, i ∈ search roster query ↔ i < roster.length ∧
        (lowerStr (stripStr query) = [] ∨
         ∃ e, roster[i]? = some e ∧ entryMatches (lowerStr (stripStr query)) e = true))
    ∧ (search roster query).Pairwise (· < ·) := by
  by_cases hq : lowerStr (stripStr query) = []
  · refine ⟨fun _ => by simp [search, hq], fun i => ?_, ?_⟩
    · simp [search, hq, List.mem_range]
    · simp only [search, hq, if_pos]
      exact List.pairwise_lt_range _
  · refine ⟨fun h => absurd h hq, fun i => ?_, ?_⟩
    · simp only [search, if_neg hq, List.mem_filter, List.mem_range]
      constructor
      · rintro ⟨hlt, hp⟩
        refine ⟨hlt, Or.inr ?_⟩
        cases he : roster[i]? with
        | none => rw [he] at hp; simp at hp
        | some e => rw [he] at hp; simp at hp; exact ⟨e, rfl, hp⟩
      · rintro ⟨hlt, hor⟩
        rcases hor with h | ⟨e, he, hm⟩
        · exact absurd h hq
        · exact ⟨hlt, by simp [he, hm]⟩
    · simp only [search, if_neg hq]
      exact (List.pairwise_lt_range _).filter _

/-- Witness for `search_amended`: the empty query on the two-entry roster
returns all indices in order. -/
theorem search_amended_witness :
    search roster2 [] = List.range roster2.length :=
  (search_amended roster2 []).1 rfl

/-- A detected face region (`FaceBox.__init__`, lines 40-46): box geometry
in raw image pixels, a 1-based id, and the optional assigned roster index.
The canvas handles `rect_obj`/`text_obj` are rendering state with no
bearing on the claims and are omitted. -/
structure FaceBox where
  x : Int
  y : Int
  w : Int
  h : Int
  id : Nat
  assigned_idx : Option Nat
deriving DecidableEq, Repr

/-- `FaceBox.contains` (lines 48-49):
`self.x <= px <= self.x + self.w and self.y <= py <= self.y + self.h`. -/
def FaceBox.containsPt (fb : FaceBox) (px py : Int) : Bool :=
  (fb.x ≤ px && px ≤ fb.x + fb.w) && (fb.y ≤ py && py ≤ fb.y + fb.h)

/-- The hit-test loop of `App.on_click` (lines 203-206): walk the batch in
reverse and return the first containing box, i.e. the last containing box
in batch order; `none` when no box contains the point. -/
def hit_test (faces : List FaceBox) (px py : Int) : Option FaceBox :=
  faces.reverse.find? (fun fb => fb.containsPt px py)

/-- Overlapping region A of the spec's precedence scenario (id 1). -/
def boxA : FaceBox := ⟨0, 0, 10, 10, 1, none⟩

/-- Overlapping region B of the spec's precedence scenario (id 2); covers
the shared point `(7, 7)`. -/
def boxB : FaceBox := ⟨5, 5, 10, 10, 2, none⟩

/-- C7: `hit_test` returns `none` exactly when no box contains the point;
a returned box contains the point and every region after it in batch order
does not (last-in-order wins); box edges are inclusive; and on the spec's
scenario of overlapping regions A (id 1) then B (id 2) sharing `(7, 7)`,
the hit-test returns B. -/
theorem hit_test_spec (faces : List FaceBox) (px py : Int) :
    (hit_test faces px py = none ↔ ∀ fb ∈ faces, fb.containsPt px py = false)
    ∧ (∀ fb, hit_test faces px py = some fb →
        fb.containsPt px py = true ∧
        ∃ pre post, faces = pre ++ fb :: post ∧
          ∀ g ∈ post, g.containsPt px py = false)
    ∧ (∀ fb : FaceBox, 0 ≤ fb.w → 0 ≤ fb.h →
        fb.containsPt fb.x fb.y = true ∧
        fb.containsPt (fb.x + fb.w) (fb.y + fb.h) = true)
    ∧ hit_test [boxA, boxB] 7 7 = some boxB := by
  refine ⟨?_, ?_, ?_, by decide⟩
  · rw [hit_test, List.find?_eq_none]
    constructor
    · intro h fb hm
      simpa using h fb (List.mem_reverse.mpr hm)
    · intro h fb hm
      simp [h fb (List.mem_reverse.mp hm)]
  · intro fb h
    rw [hit_test, List.find?_eq_some] at h
    obtain ⟨hp, as, bs, hsplit, hbefore⟩ := h
    refine ⟨hp, bs.reverse, as.reverse, ?_, ?_⟩
    · have : faces.reverse.reverse = (as ++ fb :: bs).reverse := by rw [hsplit]
      simpa [List.reverse_append] using this
    · intro g hg
      have := hbefore g (List.mem_reverse.mp hg)
      simpa using this
  · intro fb hw hh
    constructor
    · simp only [FaceBox.containsPt, Bool.and_eq_true, decide_eq_true_eq]
      omega
    · simp only [FaceBox.containsPt, Bool.and_eq_true, decide_eq_true_eq]
      omega

/-- Witness for `hit_test_spec`: on the concrete overlapping batch the
returned box B does contain the shared point, extracted through the
theorem's characterization. -/
theorem hit_test_spec_witness : boxB.containsPt 7 7 = true :=
  ((hit_test_spec [boxA, boxB] 7 7).2.1 boxB (by decide)).1

/-- The duplicate scan of `assign_dialog.do_assign` (lines 240-242): the
positions (with their boxes) of every *other* region in the batch whose
`assigned_idx` already equals the picked roster index; the dialog requests
one yes/no confirmation per element, in order. -/
def duplicate_asks (faces : List FaceBox) (i idx : Nat) : List (Nat × FaceBox) :=
  faces.enum.filter
    (fun p => decide (p.1 ≠ i) && decide (p.2.assigned_idx = some idx))

/-- Did the operator answer yes to every duplicate confirmation?
`answers k` is the reply to the k-th `askyesno`. The source returns on the
first "no" without having mutated anything, so the final state is
committed iff every asked question is answered yes. -/
def all_confirmed (faces : List FaceBox) (i idx : Nat)
    (answers : Nat → Bool) : Bool :=
  (List.range (duplicate_asks faces i idx).length).all answers

/-- `assign_dialog.do_assign` (lines 232-247) acting on the batch, where
the dialog's box `fb` sits at position `i`: on full confirmation
`fb.assigned_idx = idx` is committed; otherwise the batch is unchanged. -/
def do_assign (faces : List FaceBox) (i idx : Nat)
    (answers : Nat → Bool) : List FaceBox :=
  if all_confirmed faces i idx answers then
    match faces[i]? with
    | some fb => faces.set i { fb with assigned_idx := some idx }
    | none => faces
  else faces

/-- C1: when some other region `j` already has `assigned_idx = E`,
assigning `E` to region `i` asks at least one confirmation question; if
confirmation is withheld the whole batch (in particular region `i`) is
unchanged; and once fully confirmed both regions report
`assigned_idx = E`. -/
theorem assign_duplicate_gate (faces : List FaceBox) (i j E : Nat)
    (answers : Nat → Bool) (fbj : FaceBox)
    (hne : j ≠ i) (hj : faces[j]? = some fbj)
    (hE : fbj.assigned_idx = some E) (hi : i < faces.length) :
    0 < (duplicate_asks faces i E).length
    ∧ (all_confirmed faces i E answers = false →
        do_assign faces i E answers = faces)
    ∧ (all_confirmed faces i E answers = true →
        ((do_assign faces i E answers)[i]?).map FaceBox.assigned_idx
            = some (some E)
        ∧ ((do_assign faces i E answers)[j]?).map FaceBox.assigned_idx
            = some (some E)) := by
  refine ⟨?_, ?_, ?_⟩
  · have hmem : (j, fbj) ∈ faces.enum := List.mk_mem_enum_iff_getElem?.mpr hj
    have : (j, fbj) ∈ duplicate_asks faces i E := by
      rw [duplicate_asks, List.mem_filter]
      exact ⟨hmem, by simp [hne, hE]⟩
    exact List.length_pos.mpr (List.ne_nil_of_mem this)
  · intro h
    simp [do_assign, h]
  · intro h
    have hfbi : faces[i]? = some (faces.get ⟨i, hi⟩) :=
      List.getElem?_eq_getElem hi
    rw [do_assign, if_pos h, hfbi]
    constructor
    · rw [List.getElem?_set_self (by simpa using hi)]
      rfl
    · rw [List.getElem?_set_ne (fun hcon => hne hcon.symm), hj]
      simp [hE]

/-- A region assigned to roster entry 0 (Ann). -/
def fbAnn : FaceBox := ⟨0, 0, 10, 10, 1, some 0⟩

/-- An unassigned second region. -/
def fbFree : FaceBox := ⟨20, 0, 10, 10, 2, none⟩

/-- Batch for the duplicate-gate witness: Ann already bound to region 1. -/
def faces1 : List FaceBox := [fbAnn, fbFree]

/-- An operator who confirms every duplicate question. -/
def allYes : Nat → Bool := fun _ => true

/-- Witness for `assign_duplicate_gate`: re-assigning Ann (entry 0) to the
second region of `faces1` asks a question, and under an all-yes operator
both regions end up bound to entry 0. -/
theorem assign_duplicate_gate_witness :
    0 < (duplicate_asks faces1 1 0).length
    ∧ (all_confirmed faces1 1 0 allYes = false →
        do_assign faces1 1 0 allYes = faces1)
    ∧ (all_confirmed faces1 1 0 allYes = true →
        ((do_assign faces1 1 0 allYes)[1]?).map FaceBox.assigned_idx
            = some (some 0)
        ∧ ((do_assign faces1 1 0 allYes)[0]?).map FaceBox.assigned_idx
            = some (some 0)) :=
  assign_duplicate_gate faces1 1 0 0 allYes fbAnn (by decide) (by decide)
    (by decide) (by decide)

/-- Attendance status of one report row. -/
inductive Status where
  | Present
  | Absent
deriving DecidableEq, Repr

/-- One row of the report built by `App.save_attendance` (lines 307-315). -/
structure AttendanceRecord where
  admission_no : List Char
  name : List Char
  sect : List Char
  status : Status
  photo : List Char
  saved_at : Nat
deriving DecidableEq, Repr

/-- The spec's `EmptyRosterError`: `save_attendance` refuses to build a
report from an empty roster (lines 298-300). -/
inductive ReportError where
  | emptyRoster
deriving DecidableEq, Repr

/-- The present set of `App.save_attendance` (line 305):
`set(fb.assigned_idx for fb in self.faces if fb.assigned_idx is not None)`;
also the deduplicated content of `App.refresh_present_list`. -/
def present_idxs (faces : List FaceBox) : Finset Nat :=
  (faces.filterMap FaceBox.assigned_idx).toFinset

/-- One iteration of the report loop (lines 307-315). `now k` models the
value of the k-th `datetime.now()` call made inside the loop; the row for
roster index `i` makes the i-th such call. -/
def mkRecord (faces : List FaceBox) (photo : List Char) (now : Nat → Nat)
    (i : Nat) (e : RosterEntry) : AttendanceRecord :=
  { admission_no := e.admission_no
    name := e.name
    sect := e.sect
    status := if i ∈ present_idxs faces then .Present else .Absent
    photo := photo
    saved_at := now i }

/-- `App.save_attendance` (lines 297-316), the reconciliation
`build_report` of the spec: guard against the empty roster, then one
record per roster row in roster order. The spreadsheet write that follows
is an external collaborator and not modelled. -/
def save_attendance (roster : List RosterEntry) (faces : List FaceBox)
    (photo : List Char) (now : Nat → Nat) :
    Except ReportError (List AttendanceRecord) :=
  if roster.isEmpty then .error .emptyRoster
  else .ok (roster.enum.map (fun p => mkRecord faces photo now p.1 p.2))

/-- C9: `build_report` on an empty roster fails with the empty-roster
error and produces no report; the model is pure, so no other state is
touched (the source returns before mutating anything). -/
theorem build_report_empty_roster (faces : List FaceBox) (photo : List Char)
    (now : Nat → Nat) :
    save_attendance [] faces photo now = .error .emptyRoster := rfl

lemma toFinset_list_range (n : Nat) :
    (List.range n).toFinset = Finset.range n := by
  ext i
  simp [List.mem_toFinset, List.mem_range, Finset.mem_range]

lemma present_idxs_subset_range (roster : List RosterEntry)
    (faces : List FaceBox)
    (hvalid : ∀ fb ∈ faces, ∀ e, fb.assigned_idx = some e → e < roster.length) :
    present_idxs faces ⊆ Finset.range roster.length := by
  intro e he
  rw [present_idxs, List.mem_toFinset, List.mem_filterMap] at he
  obtain ⟨fb, hfb, hsome⟩ := he
  exact Finset.mem_range.mpr (hvalid fb hfb e hsome)

/-- C2: on a nonempty roster all of whose referenced entry-indices are
valid (the spec's roster invariant), `build_report` yields exactly one
record per roster entry, in roster order; a record's status is Present iff
its index is in the present set; and the number of Present records equals
the size of the present set. -/
theorem build_report_complete (roster : List RosterEntry)
    (faces : List FaceBox) (photo : List Char) (now : Nat → Nat)
    (hne : roster ≠ [])
    (hvalid : ∀ fb ∈ faces, ∀ e, fb.assigned_idx = some e → e < roster.length) :
    ∃ recs, save_attendance roster faces photo now = .ok recs
      ∧ recs.length = roster.length
      ∧ (∀ i, recs[i]? = (roster[i]?).map (mkRecord faces photo now i))
      ∧ (∀ i r, recs[i]? = some r →
          (r.status = .Present ↔ i ∈ present_idxs faces))
      ∧ (recs.filter (fun r => r.status == Status.Present)).length
          = (present_idxs faces).card := by
  have hempty : roster.isEmpty = false := by
    cases roster with
    | nil => exact absurd rfl hne
    | cons a t => rfl
  refine ⟨roster.enum.map (fun p => mkRecord faces photo now p.1 p.2),
    by simp [save_attendance, hempty], by simp, ?_, ?_, ?_⟩
  · intro i
    simp only [List.getElem?_map, List.getElem?_enum, Option.map_map]
    rfl
  · intro i r hr
    have h3 : (roster.enum.map (fun p => mkRecord faces photo now p.1 p.2))[i]?
        = (roster[i]?).map (mkRecord faces photo now i) := by
      simp only [List.getElem?_map, List.getElem?_enum, Option.map_map]
      rfl
    rw [h3] at hr
    cases he : roster[i]? with
    | none => rw [he] at hr; exact absurd hr (by simp)
    | some e =>
      rw [he] at hr
      have hre : r = mkRecord faces photo now i e := by
        simpa using hr.symm
      subst hre
      by_cases hin : i ∈ present_idxs faces
      · simp [mkRecord, hin]
      · simp [mkRecord, hin]
  · rw [← List.countP_eq_length_filter, List.countP_map]
    have hcongr : List.countP
        ((fun r => r.status == Status.Present) ∘
          (fun p => mkRecord faces photo now p.1 p.2)) roster.enum
        = List.countP (fun p : Nat × RosterEntry =>
            decide (p.1 ∈ present_idxs faces)) roster.enum := by
      apply List.countP_congr
      intro p _
      by_cases hin : p.1 ∈ present_idxs faces
      · simp [mkRecord, hin]
      · simp [mkRecord, hin]
    rw [hcongr]
    have hfst : List.countP (fun p : Nat × RosterEntry =>
          decide (p.1 ∈ present_idxs faces)) roster.enum
        = List.countP (fun i => decide (i ∈ present_idxs faces))
            (roster.enum.map Prod.fst) := by
      rw [List.countP_map]
      rfl
    rw [hfst, List.enum_map_fst, List.countP_eq_length_filter]
    have hnodup : ((List.range roster.length).filter
        (fun i => decide (i ∈ present_idxs faces))).Nodup :=
      (List.nodup_range _).filter _
    rw [← List.toFinset_card_of_nodup hnodup, List.toFinset_filter,
      toFinset_list_range]
    have : (Finset.range roster.length).filter
        (fun i => i ∈ present_idxs faces) = present_idxs faces := by
      rw [Finset.filter_mem_eq_inter]
      exact Finset.inter_eq_right.mpr
        (present_idxs_subset_range roster faces hvalid)
    simp only [decide_eq_true_eq]
    exact congrArg Finset.card this

/-- Batch with one region assigned to Ann (entry 0), the spec's scenario. -/
def facesAnn : List FaceBox := [fbAnn]

/-- The clock for witnesses and counterexamples: the k-th `datetime.now()`
call of the report loop returns `k` (a strictly advancing clock). -/
def tick : Nat → Nat := fun k => k

/-- Witness for `build_report_complete` on the spec's scenario roster
`[(A001, Ann), (A002, Bob)]` with one region assigned to Ann. -/
theorem build_report_complete_witness :
    ∃ recs, save_attendance roster2 facesAnn [] tick = .ok recs
      ∧ recs.length = roster2.length
      ∧ (∀ i, recs[i]? = (roster2[i]?).map (mkRecord facesAnn [] tick i))
      ∧ (∀ i r, recs[i]? = some r →
          (r.status = .Present ↔ i ∈ present_idxs facesAnn))
      ∧ (recs.filter (fun r => r.status == Status.Present)).length
          = (present_idxs facesAnn).card :=
  build_report_complete roster2 facesAnn [] tick (by decide) (by decide)

/-- C4 (counterexample): under a clock that advances between the per-row
`datetime.now()` calls (line 314 runs once per loop iteration), the two
records of the scenario roster carry different `saved_at` values, so the
timestamp is not captured once per report. -/
theorem saved_at_counterexample :
    ¬ ∀ recs, save_attendance roster2 [] [] tick = Except.ok recs →
        ∀ a ∈ recs, ∀ b ∈ recs, a.saved_at = b.saved_at := fun h =>
  absurd
    (h _ rfl (mkRecord [] [] tick 0 ⟨"A001".toList, "Ann".toList, []⟩)
      (by decide) (mkRecord [] [] tick 1 ⟨"A002".toList, "Bob".toList, []⟩)
      (by decide))
    (by decide)

/-- C4 (amended): `datetime.now()` is re-sampled on every row of the
report loop: the record at roster index `i` carries the value of the i-th
in-loop clock sample, so records agree only when the clock does not
advance during the loop. -/
theorem saved_at_amended (roster : List RosterEntry) (faces : List FaceBox)
    (photo : List Char) (now : Nat → Nat) (i : Nat)
    (hi : i < roster.length) :
    ∃ recs, save_attendance roster faces photo now = .ok recs
      ∧ (recs[i]?).map AttendanceRecord.saved_at = some (now i) := by
  have hempty : roster.isEmpty = false := by
    cases roster with
    | nil => simp at hi
    | cons a t => rfl
  refine ⟨roster.enum.map (fun p => mkRecord faces photo now p.1 p.2),
    by simp [save_attendance, hempty], ?_⟩
  simp only [List.getElem?_map, List.getElem?_enum,
    List.getElem?_eq_getElem hi, Option.map_map, Option.map_some]
  rfl

/-- Witness for `saved_at_amended`: row 1 of the scenario roster carries
clock sample 1. -/
theorem saved_at_amended_witness :
    ∃ recs, save_attendance roster2 [] [] tick = .ok recs
      ∧ (recs[1]?).map AttendanceRecord.saved_at = some (tick 1) :=
  saved_at_amended roster2 [] [] tick 1 (by decide)

/-- The test of `App.remove_selected` (line 291):
`fb.assigned_idx is not None and self.roster.get_display(fb.assigned_idx) == disp`. -/
def matchesDisp (roster : List RosterEntry) (fb : FaceBox)
    (disp : List Char) : Bool :=
  match fb.assigned_idx with
  | some k => get_display roster k == some disp
  | none => false

/-- `App.remove_selected` (lines 284-295) acting on the batch: clear the
assignment of the *first* region whose displayed label equals the selected
present-list row; the loop breaks, so later regions are untouched. -/
def remove_selected (roster : List RosterEntry) :
    List FaceBox → List Char → List FaceBox
  | [], _ => []
  | fb :: rest, disp =>
    if matchesDisp roster fb disp then
      { fb with assigned_idx := none } :: rest
    else fb :: remove_selected roster rest disp

/-- C10: when entry `E` is assigned to the display-matched region `fb0`
(first match in batch order) and also to some region `g` later in the
batch, one removal clears only `fb0`; `g` keeps `E`, so `E` stays in the
present set and its report record still says Present. -/
theorem remove_selected_first_only (roster : List RosterEntry)
    (pre post : List FaceBox) (fb0 g : FaceBox) (disp : List Char) (E : Nat)
    (hpre : ∀ f ∈ pre, matchesDisp roster f disp = false)
    (h0 : matchesDisp roster fb0 disp = true)
    (_hE : fb0.assigned_idx = some E)
    (hg : g ∈ post) (hgE : g.assigned_idx = some E) :
    remove_selected roster (pre ++ fb0 :: post) disp
        = pre ++ { fb0 with assigned_idx := none } :: post
    ∧ E ∈ present_idxs (remove_selected roster (pre ++ fb0 :: post) disp)
    ∧ (∀ photo now, E < roster.length →
        ∃ recs, save_attendance roster
            (remove_selected roster (pre ++ fb0 :: post) disp) photo now
            = .ok recs
          ∧ (recs[E]?).map AttendanceRecord.status = some .Present) := by
  have h1 : remove_selected roster (pre ++ fb0 :: post) disp
      = pre ++ { fb0 with assigned_idx := none } :: post := by
    induction pre with
    | nil => simp [remove_selected, h0]
    | cons f t ih =>
      have hf : matchesDisp roster f disp = false :=
        hpre f (List.mem_cons_self f t)
      have ht : ∀ f' ∈ t, matchesDisp roster f' disp = false :=
        fun f' hf' => hpre f' (List.mem_cons_of_mem f hf')
      simp only [List.cons_append, remove_selected, hf, Bool.false_eq_true,
        if_false, List.cons.injEq, true_and]
      exact ih ht
  have h2 : E ∈ present_idxs
      (remove_selected roster (pre ++ fb0 :: post) disp) := by
    rw [h1, present_idxs, List.mem_toFinset, List.mem_filterMap]
    exact ⟨g, by simp [List.mem_append, List.mem_cons, hg], hgE⟩
  refine ⟨h1, h2, ?_⟩
  intro photo now hEr
  have hempty : roster.isEmpty = false := by
    cases roster with
    | nil => simp at hEr
    | cons a t => rfl
  refine ⟨(roster.enum.map (fun p =>
      mkRecord (remove_selected roster (pre ++ fb0 :: post) disp)
        photo now p.1 p.2)),
    by simp [save_attendance, hempty], ?_⟩
  simp only [List.getElem?_map, List.getElem?_enum,
    List.getElem?_eq_getElem hEr, Option.map_map, Option.map_some]
  simp [mkRecord, h2]

/-- A second region also assigned to Ann (entry 0), later in the batch. -/
def fbAnn2 : FaceBox := ⟨20, 20, 10, 10, 2, some 0⟩

/-- The present-list display string of Ann in `roster2`. -/
def dispAnn : List Char := "Ann  —  A001".toList

/-- Witness for `remove_selected_first_only`: with Ann bound to both
regions of the batch, removing her display row clears only the first
region and her record is still Present. -/
theorem remove_selected_first_only_witness :
    remove_selected roster2 ([] ++ fbAnn :: [fbAnn2]) dispAnn
        = [] ++ { fbAnn with assigned_idx := none } :: [fbAnn2]
    ∧ 0 ∈ present_idxs (remove_selected roster2 ([] ++ fbAnn :: [fbAnn2]) dispAnn)
    ∧ (∀ photo now, 0 < roster2.length →
        ∃ recs, save_attendance roster2
            (remove_selected roster2 ([] ++ fbAnn :: [fbAnn2]) dispAnn)
            photo now = .ok recs
          ∧ (recs[0]?).map AttendanceRecord.status = some .Present) :=
  remove_selected_first_only roster2 [] [fbAnn2] fbAnn fbAnn2 dispAnn 0
    (by intro f hf; simp at hf) (by decide) (by decide)
    (by decide) (by decide)

end Attendance
